import Mathlib

/-!
Verification of the `no-gif-allowed` remark-lint rule from
`src/how-to-create-custom-lint-rules-markdown-mdx/rules/no-gif-allowed.js`,
checked against the repository specification of the rule-execution engine.

The JavaScript source is embedded shallowly: JS attribute values are an
explicit datatype carrying truthiness, JS exceptions (the `TypeError` raised
by calling `endsWith` on a non-string) are an explicit error component, and
the append-only `file.message` sink is threaded as an explicit message list.
-/

namespace NoGifAllowed

/-- A JavaScript value sitting in a node attribute slot such as `node.url`.
`undefined` is a missing or `undefined` attribute; `str` is a string; `other`
abstracts every non-string value, keeping only its truthiness (such values
have no `endsWith` method, so calling it raises a `TypeError`). -/
inductive JSVal where
  | undefined : JSVal
  | str (s : String) : JSVal
  | other (truthy : Bool) : JSVal
deriving DecidableEq, Repr

/-- JavaScript truthiness of a `JSVal`: `undefined` is falsy, a string is
truthy iff nonempty, and `other` carries its truthiness explicitly. -/
def JSVal.truthy : JSVal → Bool
  | .undefined => false
  | .str s => s ≠ ""
  | .other t => t

/-- A JavaScript runtime fault. The only fault reachable in this rule is the
`TypeError` from calling `.endsWith` on a truthy non-string `url`. -/
inductive JSError where
  | typeError (reason : String) : JSError
deriving DecidableEq, Repr

/-- A source point: line and column (1-indexed) and offset (0-indexed),
per the Position Model of the specification. -/
structure Point where
  line : Nat
  column : Nat
  offset : Nat
deriving DecidableEq, Repr

/-- A source position, a start and an end point attached to a node. -/
structure Position where
  startPoint : Point
  endPoint : Point
deriving DecidableEq, Repr

/-- A unist tree node: a type tag, the `url` attribute slot (the only
attribute this rule reads), an optional source position, the generated flag,
and the ordered children.

The generated flag is modelled from the spec: `unist-util-generated` is an
external dependency not under `src/`; per the specification data model a
node carries a `generated` boolean marking nodes synthesized by a transform,
and `generated(node)` reads it. -/
inductive Node where
  | mk (type : String) (url : JSVal) (position : Option Position)
       (gen : Bool) (children : List Node) : Node
deriving Repr

/-- The type tag of a node. -/
def Node.type : Node → String
  | .mk ty _ _ _ _ => ty

/-- The `url` attribute slot of a node. -/
def Node.url : Node → JSVal
  | .mk _ u _ _ _ => u

/-- The optional source position of a node. -/
def Node.position : Node → Option Position
  | .mk _ _ p _ _ => p

/-- The generated flag of a node. -/
def Node.gen : Node → Bool
  | .mk _ _ _ g _ => g

/-- The ordered children of a node. -/
def Node.children : Node → List Node
  | .mk _ _ _ _ cs => cs

/-- Diagnostic severity, per the specification data model. -/
inductive Severity where
  | error : Severity
  | warning : Severity
  | info : Severity
deriving DecidableEq, Repr

/-- A vfile message as produced through `file.message(reason, node)`:
the message text, the position taken from the node, the rule identifier
(attached later by the `unified-lint-rule` wrapper), and the severity
(`file.message` produces non-fatal messages, i.e. warnings). -/
structure VMessage where
  reason : String
  position : Option Position
  ruleId : Option String
  severity : Severity
deriving DecidableEq, Repr

/-- The result of `isValidNode` in JavaScript: the function either returns
`undefined` (its `if` guard failed and it falls off the end) or a boolean. -/
inductive RuleVal where
  | undefined : RuleVal
  | val (b : Bool) : RuleVal
deriving DecidableEq, Repr

/-- Truthiness of an `isValidNode` result: `undefined` is falsy. -/
def RuleVal.truthy : RuleVal → Bool
  | .undefined => false
  | .val b => b

/-- JavaScript `String.prototype.endsWith(search)`: the literal suffix test
on the character sequence, with no case folding and no url parsing. -/
def jsEndsWith (s suffix : String) : Bool := suffix.data.isSuffixOf s.data

/-- Embedding of `isValidNode` from `rules/no-gif-allowed.js`:

```js
function isValidNode(node) {
  if (node.url) {
    return !node.url.endsWith(".gif");
  }
}
```

When `node.url` is falsy the function returns `undefined`; when it is a
truthy string it returns the negated literal suffix test; when it is a
truthy non-string, `node.url.endsWith` is not a function and a `TypeError`
is raised. -/
def isValidNode (node : Node) : Except JSError RuleVal :=
  if node.url.truthy then
    match node.url with
    | .str s => .ok (.val (!(jsEndsWith s ".gif")))
    | _ => .error (.typeError "node.url.endsWith is not a function")
  else
    .ok .undefined

/-- The fixed message text of the rule, exactly as written in the source. -/
def gifMessage : String := "Invalid image file extentions. Please do not use gifs"

/-- Embedding of the `visitor` closure from `rules/no-gif-allowed.js`:

```js
function visitor(node) {
  if (!generated(node)) {
    var isValid = isValidNode(node);
    if (!isValid) {
      file.message(`Invalid image file extentions. Please do not use gifs`, node);
    }
  }
}
```

Returns the messages appended to the file by this call (zero or one), or the
fault raised by `isValidNode`. `file.message(reason, node)` records the
node's position; the rule identifier is attached by the wrapper. -/
def visitor (node : Node) : Except JSError (List VMessage) :=
  if !node.gen then
    match isValidNode node with
    | .error e => .error e
    | .ok isValid =>
      if !isValid.truthy then
        .ok [{ reason := gifMessage, position := node.position,
               ruleId := none, severity := .warning }]
      else
        .ok []
  else
    .ok []

mutual

/-- Modelled from the spec: `unist-util-visit` is an external dependency not
under `src/`. Per the Traversal Engine contract it performs a pre-order
depth-first walk, invoking the callback on every node whose type equals the
filter, parent before children and siblings in array order. The walk returns
the messages emitted so far together with the first fault raised by the
callback, which aborts the remaining traversal (messages already appended to
the file are kept). -/
def visit (test : String) (f : Node → Except JSError (List VMessage)) :
    Node → List VMessage × Option JSError
  | .mk ty url pos g cs =>
    match (if ty == test then f (.mk ty url pos g cs) else .ok []) with
    | .error e => ([], some e)
    | .ok here =>
      match visitList test f cs with
      | (ms, err) => (here ++ ms, err)

/-- Pre-order walk over a sibling list, left to right, stopping at the first
fault. -/
def visitList (test : String) (f : Node → Except JSError (List VMessage)) :
    List Node → List VMessage × Option JSError
  | [] => ([], none)
  | c :: cs =>
    match visit test f c with
    | (ms, some e) => (ms, some e)
    | (ms, none) =>
      match visitList test f cs with
      | (ms2, err) => (ms ++ ms2, err)

end

/-- Embedding of `noGifAllowed(tree, file, options)`: calls
`visit(tree, "image", visitor)`. The `options` argument is accepted but
never read, exactly as in the source. The result is the list of messages
appended to the file in traversal order, plus the fault if one escaped. -/
def noGifAllowed (tree : Node) (options : JSVal) :
    List VMessage × Option JSError :=
  visit "image" visitor tree

/-- Modelled from the spec: the `unified-lint-rule` wrapper is an external
dependency not under `src/`. Per the Rule Registry contract,
`register(namespace, name, implementation)` — here
`rule("remark-lint:no-gif-allowed", noGifAllowed)` — yields the qualified
identifier string `"<namespace>:<name>"`, and every diagnostic emitted by
the wrapped rule carries a `ruleId` equal to that qualified name. -/
def ruleWrap (qualifiedId : String)
    (impl : Node → JSVal → List VMessage × Option JSError) :
    Node → JSVal → List VMessage × Option JSError :=
  fun tree options =>
    match impl tree options with
    | (ms, err) => (ms.map (fun m => { m with ruleId := some qualifiedId }), err)

/-- The qualified identifier the rule is registered under, exactly the first
argument of `rule(...)` at the last line of the source file. -/
def noGifAllowedId : String := "remark-lint:no-gif-allowed"

/-- The exported rule, `module.exports = rule("remark-lint:no-gif-allowed",
noGifAllowed)`: the rule implementation wrapped with its qualified id. -/
def noGifAllowedRule (tree : Node) (options : JSVal) :
    List VMessage × Option JSError :=
  ruleWrap noGifAllowedId noGifAllowed tree options

/-- The vfile the rule writes into, an append-only list of messages. -/
structure VFile where
  messages : List VMessage
deriving DecidableEq, Repr

/-- The rule as invoked by the lint engine: it receives the tree and the
file, appends its messages to the file through `file.message`, and performs
no other state change — the source contains no assignment to any node or to
any other field of the file, so the faithful state-threaded embedding
returns the tree it was given unchanged together with the extended file. -/
def noGifAllowedApply (tree : Node) (file : VFile) (options : JSVal) :
    Node × VFile × Option JSError :=
  match noGifAllowedRule tree options with
  | (ms, err) => (tree, ⟨file.messages ++ ms⟩, err)

mutual

/-- The pre-order node sequence of a tree: parent before children, siblings
in array order — the order in which the traversal engine visits nodes. -/
def preorder : Node → List Node
  | .mk ty url pos g cs => .mk ty url pos g cs :: preorderList cs

/-- The pre-order node sequence of a sibling forest. -/
def preorderList : List Node → List Node
  | [] => []
  | c :: cs => preorder c ++ preorderList cs

end

/-- Position of the `funny-cat.gif` image in the tutorial document
(the reported range `5:1-5:30`). -/
def catPos : Position := ⟨⟨5, 1, 50⟩, ⟨5, 30, 79⟩⟩

/-- Position of the `lovely-dog.png` image in the tutorial document. -/
def dogPos : Position := ⟨⟨7, 1, 90⟩, ⟨7, 32, 121⟩⟩

/-- The non-generated `image` node referencing `funny-cat.gif`. -/
def catNode : Node := .mk "image" (.str "funny-cat.gif") (some catPos) false []

/-- The non-generated `image` node referencing `lovely-dog.png`. -/
def dogNode : Node := .mk "image" (.str "lovely-dog.png") (some dogPos) false []

/-- The tutorial tree: a root holding the `.gif` image and the `.png`
image, in that order. -/
def demoTree : Node := .mk "root" .undefined none false [catNode, dogNode]

/-- The diagnostic the exported rule emits for the `funny-cat.gif` node. -/
def catMsg : VMessage :=
  { reason := gifMessage, position := some catPos,
    ruleId := some noGifAllowedId, severity := .warning }

/-- The message `visitor` itself appends for the `funny-cat.gif` node,
before the wrapper attaches the rule identifier. -/
def rawCatMsg : VMessage :=
  { reason := gifMessage, position := some catPos,
    ruleId := none, severity := .warning }

/-- Every message list returned by `visitor` consists of messages carrying
the fixed text, the visited node's position, a warning severity and no rule
identifier: the single `file.message` call site fixes their shape. -/
theorem visitor_shape (n : Node) (ms : List VMessage) (h : visitor n = .ok ms) :
    ∀ m ∈ ms, m.reason = gifMessage ∧ m.severity = Severity.warning ∧
      m.ruleId = none ∧ m.position = n.position := by
  unfold visitor at h
  split at h
  · split at h
    · exact absurd h (by simp)
    · split at h
      · cases h
        intro m hm
        simp only [List.mem_singleton] at hm
        subst hm
        exact ⟨rfl, rfl, rfl, rfl⟩
      · cases h
        intro m hm
        exact absurd hm (List.not_mem_nil m)
  · cases h
    intro m hm
    exact absurd hm (List.not_mem_nil m)

mutual

/-- Every message the traversal appends has the fixed text and warning
severity, and carries no rule identifier yet (tree version). -/
theorem visit_shape (t : Node) :
    ∀ m ∈ (visit "image" visitor t).1,
      m.reason = gifMessage ∧ m.severity = Severity.warning ∧ m.ruleId = none := by
  cases t with
  | mk ty url pos g cs =>
    intro m hm
    unfold visit at hm
    split at hm
    · exact absurd hm (List.not_mem_nil m)
    · rename_i here hhere
      split at hm
      rename_i ms err hcs
      rcases List.mem_append.mp hm with hl | hr
      · split at hhere
        · rcases visitor_shape _ _ hhere m hl with ⟨h1, h2, h3, _⟩
          exact ⟨h1, h2, h3⟩
        · cases hhere
          exact absurd hl (List.not_mem_nil m)
      · have := visitList_shape cs m
        rw [hcs] at this
        exact this hr

/-- Every message the traversal appends has the fixed text and warning
severity, and carries no rule identifier yet (forest version). -/
theorem visitList_shape (l : List Node) :
    ∀ m ∈ (visitList "image" visitor l).1,
      m.reason = gifMessage ∧ m.severity = Severity.warning ∧ m.ruleId = none := by
  cases l with
  | nil =>
    intro m hm
    exact absurd hm (List.not_mem_nil m)
  | cons c cs =>
    intro m hm
    unfold visitList at hm
    split at hm
    · rename_i ms e hc
      have := visit_shape c m
      rw [hc] at this
      exact this hm
    · rename_i ms hc
      split at hm
      rename_i ms2 err hcs
      rcases List.mem_append.mp hm with hl | hr
      · have := visit_shape c m
        rw [hc] at this
        exact this hl
      · have := visitList_shape cs m
        rw [hcs] at this
        exact this hr

end

/-- Claim C1: the specification states that an image node whose `url` is
missing or non-textual is treated as non-matching — no diagnostic and no
fault. The code does the opposite: for a missing `url`, `isValidNode`
returns `undefined`, `!undefined` is `true`, and the fixed warning is
emitted; for a truthy non-string `url`, `node.url.endsWith` raises a
`TypeError`. This theorem evaluates the embedded code at both failing
inputs. -/
theorem c1_missing_url_behaviour :
    noGifAllowedRule (.mk "image" .undefined (some catPos) false []) .undefined
      = ([{ reason := gifMessage, position := some catPos,
            ruleId := some noGifAllowedId, severity := .warning }], none) ∧
    noGifAllowedRule (.mk "image" (.other true) (some catPos) false []) .undefined
      = ([], some (.typeError "node.url.endsWith is not a function")) := by
  constructor <;>
    simp [noGifAllowedRule, ruleWrap, noGifAllowed, visit, visitList, visitor,
      isValidNode, JSVal.truthy, RuleVal.truthy, Node.url, Node.gen,
      Node.position, Node.type]

/-- Claim C2, counterexample: the claim predicts no diagnostic when `.gif`
occurs only in a query string, and a diagnostic exactly when the url path
ends in `.gif`. The code tests the literal suffix of the whole url string,
so `lovely-dog.png?frame=.gif` (path component ending in `.png`) is
reported; an empty textual url is also reported (it is falsy, so
`isValidNode` returns `undefined`), although it does not end in `.gif`. -/
theorem c2_counterexample :
    ((noGifAllowedRule
        (.mk "image" (.str "lovely-dog.png?frame=.gif") (some dogPos) false [])
        .undefined).1.length = 1) ∧
    ((noGifAllowedRule (.mk "image" (.str "") (some dogPos) false [])
        .undefined).1.length = 1) := by
  constructor <;>
    simp +decide [noGifAllowedRule, ruleWrap, noGifAllowed, visit, visitList,
      visitor, isValidNode, JSVal.truthy, RuleVal.truthy, Node.url, Node.gen,
      Node.position, Node.type]

/-- Claim C2, amended: for every non-generated `image` node whose `url` is a
nonempty textual value, the rule emits exactly one warning diagnostic at the
node's position iff the whole url string ends with the case-sensitive
literal suffix `.gif` (so `.GIF` is not reported, while `.gif` at the end of
a query string is), and no fault is raised. -/
theorem c2_literal_suffix (s : String) (pos : Option Position) (o : JSVal)
    (h : s ≠ "") :
    noGifAllowedRule (.mk "image" (.str s) pos false []) o
      = (if jsEndsWith s ".gif"
         then [{ reason := gifMessage, position := pos,
                 ruleId := some noGifAllowedId, severity := .warning }]
         else [], none) := by
  cases hE : jsEndsWith s ".gif" <;>
    simp [noGifAllowedRule, ruleWrap, noGifAllowed, visit, visitList, visitor,
      isValidNode, JSVal.truthy, RuleVal.truthy, Node.url, Node.gen,
      Node.position, Node.type, h, hE]

/-- Witness for the amended claim C2 at the tutorial input
`funny-cat.gif`. -/
theorem c2_literal_suffix_witness :
    ("funny-cat.gif" ≠ "") ∧
    noGifAllowedRule (.mk "image" (.str "funny-cat.gif") (some catPos) false [])
      .undefined = ([catMsg], none) := by
  refine ⟨by decide, ?_⟩
  rw [c2_literal_suffix "funny-cat.gif" (some catPos) .undefined (by decide)]
  have hE : jsEndsWith "funny-cat.gif" ".gif" = true := by decide
  simp [hE, catMsg]

/-- Claim C3: on the tutorial tree holding the `funny-cat.gif` image and the
`lovely-dog.png` image, the rule emits exactly one warning diagnostic,
positioned at the `.gif` node, carrying the fixed message text, and no
diagnostic at the `.png` node. -/
theorem c3_demo_tree :
    noGifAllowedRule demoTree .undefined = ([catMsg], none) ∧
    catMsg.position = catNode.position ∧
    catMsg.reason = gifMessage ∧
    catMsg.severity = Severity.warning ∧
    ((noGifAllowedRule demoTree .undefined).1.filter
      (fun m => decide (m.position = dogNode.position))).length = 0 := by
  have hev : noGifAllowedRule demoTree .undefined = ([catMsg], none) := by
    simp +decide [noGifAllowedRule, ruleWrap, noGifAllowed, visit, visitList,
      visitor, isValidNode, demoTree, catNode, dogNode, catMsg, JSVal.truthy,
      RuleVal.truthy, Node.url, Node.gen, Node.position, Node.type]
  refine ⟨hev, rfl, rfl, rfl, ?_⟩
  rw [hev]
  simp +decide [catMsg, dogNode, Node.position]

/-- Claim C4: a generated node is fully suppressed — the visitor checks the
generated flag first and appends nothing, whatever the node's url; in
particular a generated image node with url `x.gif` yields no diagnostic and
no fault. -/
theorem c4_generated_suppressed :
    (∀ (ty : String) (url : JSVal) (pos : Option Position) (cs : List Node),
      visitor (.mk ty url pos true cs) = .ok []) ∧
    (∀ (o : JSVal) (pos : Option Position),
      noGifAllowedRule (.mk "image" (.str "x.gif") pos true []) o
        = ([], none)) := by
  constructor
  · intro ty url pos cs
    rfl
  · intro o pos
    simp [noGifAllowedRule, ruleWrap, noGifAllowed, visit, visitList, visitor,
      Node.gen, Node.type]

/-- Claim C5: the rule leaves the tree unchanged and its only effect on the
file is appending its messages through `file.message`; the source contains
no assignment to any node or to any other part of the file, so the
state-threaded embedding returns exactly the input tree and the extended
message list. -/
theorem c5_frame (t : Node) (f : VFile) (o : JSVal) :
    (noGifAllowedApply t f o).1 = t ∧
    (noGifAllowedApply t f o).2.1.messages
      = f.messages ++ (noGifAllowedRule t o).1 ∧
    (noGifAllowedApply t f o).2.2 = (noGifAllowedRule t o).2 := by
  unfold noGifAllowedApply
  cases h : noGifAllowedRule t o with
  | mk ms err => simp

/-- Claim C6: applying the rule twice in sequence is deterministic and
restartable — the second application runs on the same unchanged tree, emits
exactly the same diagnostic sequence again in the same order, and reports
the same fault; no mutable cross-call state exists. -/
theorem c6_restartable (t : Node) (f : VFile) (o : JSVal) :
    noGifAllowedApply (noGifAllowedApply t f o).1
      (noGifAllowedApply t f o).2.1 o
      = (t, ⟨f.messages ++ (noGifAllowedRule t o).1 ++ (noGifAllowedRule t o).1⟩,
         (noGifAllowedRule t o).2) := by
  unfold noGifAllowedApply
  cases h : noGifAllowedRule t o with
  | mk ms err => simp [h]

/-- Claim C7: the rule is registered under the qualified identifier
`remark-lint:no-gif-allowed`, of the form `<namespace>:<name>`, and every
diagnostic emitted by the exported rule carries a `ruleId` equal to that
qualified name. -/
theorem c7_qualified_id :
    noGifAllowedId = "remark-lint" ++ ":" ++ "no-gif-allowed" ∧
    ∀ (t : Node) (o : JSVal) (m : VMessage),
      m ∈ (noGifAllowedRule t o).1 → m.ruleId = some noGifAllowedId := by
  refine ⟨rfl, ?_⟩
  intro t o m hm
  unfold noGifAllowedRule ruleWrap at hm
  cases h : noGifAllowed t o with
  | mk ms err =>
    rw [h] at hm
    simp only [List.mem_map] at hm
    obtain ⟨m0, _, rfl⟩ := hm
    rfl

/-- Witness for claim C7 at the tutorial tree: the emitted diagnostic
carries the qualified rule identifier. -/
theorem c7_qualified_id_witness :
    (catMsg ∈ (noGifAllowedRule demoTree .undefined).1) ∧
    catMsg.ruleId = some noGifAllowedId := by
  have hev : noGifAllowedRule demoTree .undefined = ([catMsg], none) := by
    simp +decide [noGifAllowedRule, ruleWrap, noGifAllowed, visit, visitList,
      visitor, isValidNode, demoTree, catNode, dogNode, catMsg, JSVal.truthy,
      RuleVal.truthy, Node.url, Node.gen, Node.position, Node.type]
  have hm : catMsg ∈ (noGifAllowedRule demoTree .undefined).1 := by
    rw [hev]; exact List.mem_singleton_self _
  exact ⟨hm, c7_qualified_id.2 demoTree .undefined catMsg hm⟩

/-- Claim C8: the `options` argument is never read — the diagnostics are
identical for any two options values, on every tree. -/
theorem c8_options_ignored (t : Node) (o1 o2 : JSVal) :
    noGifAllowedRule t o1 = noGifAllowedRule t o2 := rfl

/-- Claim C9: the traversal invokes the visitor only on nodes whose type is
exactly `image`; a node of any other type contributes nothing itself — the
walk over its subtree is exactly the walk over its children — so it is never
reported, whatever its url. -/
theorem c9_non_image_ignored (ty : String) (url : JSVal) (pos : Option Position)
    (g : Bool) (cs : List Node) (h : ty ≠ "image") :
    visit "image" visitor (.mk ty url pos g cs)
      = visitList "image" visitor cs := by
  have hb : (ty == "image") = false := by simpa using h
  cases hv : visitList "image" visitor cs with
  | mk ms err => simp [visit, hb, hv]

/-- Witness for claim C9: a `link` node with a `.gif` url produces no
diagnostic. -/
theorem c9_non_image_ignored_witness :
    ("link" ≠ "image") ∧
    visit "image" visitor (.mk "link" (.str "x.gif") none false [])
      = ([], none) := by
  refine ⟨by decide, ?_⟩
  rw [c9_non_image_ignored "link" (.str "x.gif") none false [] (by decide)]
  simp [visitList]

/-- Claim C10: every diagnostic the exported rule emits carries exactly the
fixed message text, and each visited node appends at most one message. -/
theorem c10_fixed_text_at_most_one :
    (∀ (t : Node) (o : JSVal) (m : VMessage),
      m ∈ (noGifAllowedRule t o).1 → m.reason = gifMessage) ∧
    (∀ (n : Node) (ms : List VMessage),
      visitor n = .ok ms → ms.length ≤ 1) := by
  constructor
  · intro t o m hm
    unfold noGifAllowedRule ruleWrap at hm
    cases h : noGifAllowed t o with
    | mk ms err =>
      rw [h] at hm
      simp only [List.mem_map] at hm
      obtain ⟨m0, hm0, rfl⟩ := hm
      have hs := visit_shape t m0
      rw [show visit "image" visitor t = (ms, err) from h] at hs
      exact (hs hm0).1
  · intro n ms h
    unfold visitor at h
    split at h
    · split at h
      · exact absurd h (by simp)
      · split at h
        · cases h; simp
        · cases h; simp
    · cases h; simp

/-- Witness for claim C10 at the tutorial tree and the `.gif` node. -/
theorem c10_fixed_text_at_most_one_witness :
    (catMsg ∈ (noGifAllowedRule demoTree .undefined).1
      ∧ catMsg.reason = gifMessage) ∧
    (visitor catNode = .ok [rawCatMsg] ∧ [rawCatMsg].length ≤ 1) := by
  have hev : noGifAllowedRule demoTree .undefined = ([catMsg], none) := by
    simp +decide [noGifAllowedRule, ruleWrap, noGifAllowed, visit, visitList,
      visitor, isValidNode, demoTree, catNode, dogNode, catMsg, JSVal.truthy,
      RuleVal.truthy, Node.url, Node.gen, Node.position, Node.type]
  have hm : catMsg ∈ (noGifAllowedRule demoTree .undefined).1 := by
    rw [hev]; exact List.mem_singleton_self _
  have hv : visitor catNode = .ok [rawCatMsg] := by
    simp +decide [visitor, isValidNode, catNode, rawCatMsg, JSVal.truthy,
      RuleVal.truthy, Node.url, Node.gen, Node.position]
  exact ⟨⟨hm, c10_fixed_text_at_most_one.1 demoTree .undefined catMsg hm⟩,
         ⟨hv, c10_fixed_text_at_most_one.2 catNode [rawCatMsg] hv⟩⟩

end NoGifAllowed
